import Mathlib

set_option autoImplicit false
set_option maxRecDepth 8000

/-!
Formal model of the order/inventory/notification workflow of the
Creative Merch UK storefront.  The definitions below are shallow
embeddings of the Firebase cloud functions in functions/index.js
(stock transactions, payment intents, order confirmation, order status
trigger, stock sync trigger, waitlist notification, review submission)
and of the client cart script (addToCart and friends).  Collections of
the document store are modelled as association lists from document id
to document data; the first matching entry is the document.
-/

/-- A product document of the catalog: display name, price in the major
currency unit (modelled as a rational number) and the integer stock
counter. -/
structure Product where
  name : String
  price : ℚ
  stock : Int
  deriving DecidableEq, Repr

/-- The products collection: document id to product document. -/
abbrev DB := List (String × Product)

/-- Document lookup by id in a collection (first matching entry). -/
def findDoc {α : Type} : List (String × α) → String → Option α
  | [], _ => none
  | (k, v) :: rest, id => if k = id then some v else findDoc rest id

/-- Write the stock field of the product document with the given id. -/
def setStock : DB → String → Int → DB
  | [], _, _ => []
  | (k, pr) :: rest, id, s =>
    (if k = id then (k, { pr with stock := s }) else (k, pr)) :: setStock rest id s

/-- Errors thrown by the stock transaction: the HttpsError codes
not-found and out-of-resource of the source, each carrying the text the
source puts in the message (the product id, resp. the product name). -/
inductive StockError where
  | productNotFound (id : String)
  | insufficientStock (name : String)
  deriving DecidableEq, Repr

/-- Check phase of updateStockTransaction: every requested item is read
from the transaction snapshot; a missing product document aborts with
productNotFound, and a product with stock below the requested quantity
aborts with insufficientStock naming the product. -/
def checkItems (db : DB) : List (String × Int) → Option StockError
  | [] => none
  | (id, q) :: rest =>
    match findDoc db id with
    | none => some (.productNotFound id)
    | some pr =>
      if pr.stock < q then some (.insufficientStock pr.name)
      else checkItems db rest

/-- Update phase of updateStockTransaction: each listed product document
gets stock set to its snapshot stock minus the requested quantity.  The
snapshot is the state the transaction read at the start (first
argument); updates are applied in list order to the accumulator. -/
def applyDecrements (db : DB) : List (String × Int) → DB → DB
  | [], acc => acc
  | it :: rest, acc =>
    applyDecrements db rest
      (match findDoc db it.1 with
       | none => acc
       | some pr => setStock acc it.1 (pr.stock - it.2))

/-- updateStockTransaction: a single atomic read-check-write transaction
over all listed products; all stock checks run before any update. -/
def updateStockTransaction (db : DB) (items : List (String × Int)) :
    Except StockError DB :=
  match checkItems db items with
  | some e => .error e
  | none => .ok (applyDecrements db items db)

/-- The state transition one call of updateStockTransaction induces on
the products collection: a thrown error rolls the transaction back and
the store is unchanged. -/
def applyTxn (db : DB) (items : List (String × Int)) : DB :=
  match updateStockTransaction db items with
  | .ok db2 => db2
  | .error _ => db

/-- A sequence of inventory-transaction calls applied in order. -/
def applyTxns (db : DB) (calls : List (List (String × Int))) : DB :=
  calls.foldl applyTxn db

/-- Every product document of the collection has non-negative stock. -/
def allStocksNonneg (db : DB) : Prop := ∀ e ∈ db, 0 ≤ e.2.stock

instance (db : DB) : Decidable (allStocksNonneg db) :=
  List.decidableBAll _ db

/-- The given item is rejected by the check phase against the given
store: its product is missing or its stock is below the quantity. -/
def itemBadB (db : DB) (it : String × Int) : Bool :=
  match findDoc db it.1 with
  | none => true
  | some pr => pr.stock < it.2

/-- The error names an offending product of the request: a listed id
with no document, or the name of a listed product whose stock is below
the requested quantity. -/
def namesOffending (db : DB) (items : List (String × Int)) : StockError → Prop
  | .productNotFound id => (∃ q, (id, q) ∈ items) ∧ findDoc db id = none
  | .insufficientStock n =>
      ∃ id q pr, (id, q) ∈ items ∧ findDoc db id = some pr ∧ pr.name = n ∧ pr.stock < q

/-- An item stored on an order document.  Items written by
createPaymentIntent carry productId; legacy items carry only id, and
the functions read the JavaScript fallback item.productId || item.id. -/
structure OrderItem where
  productId : Option String
  id : String
  name : String
  price : ℚ
  quantity : Int
  deriving DecidableEq, Repr

/-- The product reference of an order item (item.productId || item.id). -/
def OrderItem.pid (it : OrderItem) : String := it.productId.getD it.id

/-- Stock deduction performed by the onOrderCreated trigger when an
order document is created: a write batch of unconditional
FieldValue.increment(-item.quantity) updates, one per ordered item,
with no stock check.  A batch that updates a missing product document
fails as a whole, writing nothing. -/
def onOrderCreatedStock (db : DB) (items : List OrderItem) : DB :=
  if items.all (fun it => (findDoc db it.pid).isSome) then
    items.foldl
      (fun acc it =>
        match findDoc acc it.pid with
        | none => acc
        | some pr => setStock acc it.pid (pr.stock - it.quantity))
      db
  else db

/-- An order document, with the fields the studied functions read:
contact email, owning user, ordered items, lifecycle status (a string
in the source) and the payment intent reference stored at creation. -/
structure Order where
  email : String
  userId : Option String
  items : List OrderItem
  status : String
  paymentIntentId : String
  deriving DecidableEq, Repr

/-- The orders collection: document id to order document. -/
abbrev Orders := List (String × Order)

/-- Write the status field of the order document with the given id. -/
def setOrderStatus : Orders → String → String → Orders
  | [], _, _ => []
  | (k, o) :: rest, oid, st =>
    (if k = oid then (k, { o with status := st }) else (k, o)) :: setOrderStatus rest oid st

/-- The Stripe side, as confirmOrder observes it: a map from payment
intent id to the status string the processor reports for it. -/
abbrev StripeIntents := List (String × String)

/-- Errors thrown by confirmOrder: the order document is missing, or
retrieving the supplied payment intent from the processor fails. -/
inductive ConfirmError where
  | orderNotFound
  | stripeRetrieveFailed
  deriving DecidableEq, Repr

deriving instance DecidableEq for Except

/-- confirmOrder: looks the order up, retrieves the client-supplied
payment intent from the processor, and when its status is succeeded
sets the status of the order to paid (returning success true); any other
intent status returns success false and writes nothing.  The
paymentIntentId stored on the order is never read. -/
def confirmOrder (os : Orders) (stripe : StripeIntents)
    (orderId paymentIntentId : String) : Except ConfirmError (Orders × Bool) :=
  match findDoc os orderId with
  | none => .error .orderNotFound
  | some _ =>
    match findDoc stripe paymentIntentId with
    | none => .error .stripeRetrieveFailed
    | some st =>
      if st = "succeeded" then .ok (setOrderStatus os orderId "paid", true)
      else .ok (os, false)

/-- The status confirmOrder leaves the given order in, when it returns
at all. -/
def confirmedStatus (r : Except ConfirmError (Orders × Bool)) (oid : String) :
    Option String :=
  match r with
  | .error _ => none
  | .ok (os, _) => (findDoc os oid).map Order.status

/-- The confirmation step seen at the level of the whole store:
confirmOrder touches only the orders collection, so the products
collection passes through unchanged; in particular no inventory
transaction runs on this path. -/
def confirmOrderSystem (db : DB) (os : Orders) (stripe : StripeIntents)
    (oid pid : String) : DB × Except ConfirmError (Orders × Bool) :=
  (db, confirmOrder os stripe oid pid)

/-- The side effects of the onOrderStatusUpdate trigger on one order
update: whether the shipping notification mail is queued and whether
the delivery timestamp is written. -/
structure StatusEffects where
  shippingMail : Bool
  deliveredTimestamped : Bool
  deriving DecidableEq, Repr

/-- onOrderStatusUpdate: returns immediately when the status field did
not change; otherwise queues the shipping notification when the new
status is shipped (and the old one was not), and records the delivery
timestamp when the new status is delivered.  No status value is ever
rejected. -/
def onOrderStatusUpdate (oldStatus newStatus : String) : StatusEffects :=
  if newStatus == oldStatus then ⟨false, false⟩
  else ⟨newStatus == "shipped" && !(oldStatus == "shipped"), newStatus == "delivered"⟩

/-- A status write to an order document followed by the trigger: the
write is applied unconditionally, there being no transition validation
anywhere in the source. -/
def applyStatusUpdate (o : Order) (newStatus : String) : Order × StatusEffects :=
  ({ o with status := newStatus }, onOrderStatusUpdate o.status newStatus)

/-- One cart line of a checkout request, as the client sends it:
product reference, quantity, and whatever price the client claims; the
server never reads the claimed price. -/
structure CheckoutItem where
  productId : String
  quantity : Int
  clientPrice : ℚ
  deriving DecidableEq, Repr

/-- Errors thrown by createPaymentIntent while pricing the cart. -/
inductive PayError where
  | productNotFound (id : String)
  | outOfStock (name : String)
  deriving DecidableEq, Repr

/-- The per-item loop of createPaymentIntent: for each requested item
the authoritative product document is fetched from the catalog; a
missing product or stock below the requested quantity aborts, and
otherwise an order item is built from the catalog price. -/
def buildOrderItems (db : DB) : List CheckoutItem → Except PayError (List OrderItem)
  | [] => .ok []
  | it :: rest =>
    match findDoc db it.productId with
    | none => .error (.productNotFound it.productId)
    | some pr =>
      if pr.stock < it.quantity then .error (.outOfStock pr.name)
      else
        match buildOrderItems db rest with
        | .error e => .error e
        | .ok l => .ok (⟨some it.productId, "", pr.name, pr.price, it.quantity⟩ :: l)

/-- The subtotal accumulated by the createPaymentIntent loop: the sum
of catalog unit price times requested quantity over the order items. -/
def subtotalOf (l : List OrderItem) : ℚ :=
  (l.map (fun i => i.price * (i.quantity : ℚ))).sum

/-- The amounts createPaymentIntent computes server-side: subtotal from
catalog prices, shipping 0 when the subtotal exceeds 50 and 4.99
otherwise, and total = subtotal + shipping (no tax is ever added). -/
def createPaymentIntent (db : DB) (items : List CheckoutItem) :
    Except PayError (List OrderItem × ℚ × ℚ × ℚ) :=
  match buildOrderItems db items with
  | .error e => .error e
  | .ok l =>
    let st := subtotalOf l
    let sh := if st > 50 then 0 else 499 / 100
    .ok (l, st, sh, st + sh)

/-- Replace the client-claimed prices of a request pairwise by the
given list, leaving everything else unchanged. -/
def setClientPrices : List CheckoutItem → List ℚ → List CheckoutItem
  | [], _ => []
  | its, [] => its
  | it :: its, p :: ps => { it with clientPrice := p } :: setClientPrices its ps

/-- The side effects of the syncStockToMongo trigger on one product
update: whether a stock log entry is written, whether the low-stock
alert mail is queued, and whether the restock branch runs. -/
structure SyncEffects where
  logged : Bool
  lowStockMail : Bool
  restocked : Bool
  deriving DecidableEq, Repr

/-- syncStockToMongo on one product-document update: returns at once
when the stock field did not change; otherwise logs, queues the
low-stock alert exactly when newStock < 10 and oldStock >= 10, and
runs the restock branch exactly when oldStock == 0 and newStock > 0. -/
def syncStockEffects (oldStock newStock : Int) : SyncEffects :=
  if newStock == oldStock then ⟨false, false, false⟩
  else
    ⟨true,
     decide (newStock < 10) && decide (10 ≤ oldStock),
     decide (oldStock = 0) && decide (0 < newStock)⟩

/-- The low-stock alert flags produced by a sequence of stock updates:
updates.get i writes that value to the stock field, the previous value
being the one before it (the initial stock for the first update). -/
def lowAlerts : Int → List Int → List Bool
  | _, [] => []
  | s, n :: rest => (syncStockEffects s n).lowStockMail :: lowAlerts n rest

/-- The waitlists collection: product id to the emails array of its
waitlist document; a product with no entry has no waitlist document. -/
abbrev Waitlists := List (String × List String)

/-- notifyWaitlist: reads the waitlist document of the product; when it
is missing nothing happens, otherwise one restock mail is queued per
subscriber email and the document is deleted in the same batch.  The
result is the new waitlists collection and the notified recipients. -/
def notifyWaitlist (wl : Waitlists) (pid : String) : Waitlists × List String :=
  match findDoc wl pid with
  | none => (wl, [])
  | some emails => (wl.filter (fun e => e.1 != pid), emails)

/-- The waitlist consequences of one product update inside
syncStockToMongo: notifyWaitlist runs exactly when the stock field
changed from exactly 0 to a positive value. -/
def syncWaitlistStep (wl : Waitlists) (pid : String) (oldStock newStock : Int) :
    Waitlists × List String :=
  if newStock = oldStock then (wl, [])
  else if oldStock = 0 ∧ 0 < newStock then notifyWaitlist wl pid
  else (wl, [])

/-- Errors thrown by submitReview. -/
inductive ReviewError where
  | unauthenticated
  | permissionDenied
  deriving DecidableEq, Repr

/-- The caller identity of an authenticated callable invocation. -/
structure AuthCtx where
  uid : String
  name : Option String
  deriving DecidableEq, Repr

/-- A review document as submitReview writes it. -/
structure Review where
  userId : String
  userName : String
  rating : Int
  comment : String
  title : String
  verified_purchase : Bool
  approved : Bool
  deriving DecidableEq, Repr

/-- The purchase verification of submitReview: some order of the caller
in delivered status contains an item whose product reference is the
reviewed product. -/
def verifiedPurchase (orders : List Order) (uid pid : String) : Bool :=
  orders.any fun o =>
    o.userId == some uid && o.status == "delivered" &&
      o.items.any (fun it => it.pid == pid)

/-- submitReview: rejects unauthenticated callers, rejects callers with
no delivered order containing the product, and otherwise writes a
review document with verified_purchase true and approved false. -/
def submitReview (orders : List Order) (auth : Option AuthCtx)
    (productId : String) (rating : Int) (comment title : String) :
    Except ReviewError Review :=
  match auth with
  | none => .error .unauthenticated
  | some a =>
    if verifiedPurchase orders a.uid productId then
      .ok ⟨a.uid, a.name.getD "Customer", rating, comment, title, true, false⟩
    else .error .permissionDenied

/-- A customization object: ordered string key/value pairs, exactly as
JSON.stringify serialises a flat object of string values. -/
abbrev Customization := List (String × String)

/-- JSON.stringify of a flat string-valued object. -/
def stringifyCust (c : Customization) : String :=
  "\x7b" ++
    String.intercalate ","
      (c.map (fun kv => "\"" ++ kv.1 ++ "\":\"" ++ kv.2 ++ "\"")) ++
  "\x7d"

/-- 32-bit signed wrap-around, the effect of JavaScript bitwise
operations on a number. -/
def toInt32 (n : Int) : Int := (n + 2 ^ 31) % 2 ^ 32 - 2 ^ 31

/-- One step of the customization hash of the cart script:
a = ((a << 5) - a) + charCode; a = a & a. -/
def hashStep (a c : Int) : Int := toInt32 (toInt32 (a * 32) - a + c)

/-- The string hash used by getCustomizationHash: the JavaScript fold
of hashStep over the character codes, starting from 0. -/
def jsHash (s : String) : Int :=
  s.data.foldl (fun a ch => hashStep a (ch.toNat : Int)) 0

/-- getCustomizationHash: a missing or empty customization yields the
empty string, which is falsy; otherwise the numeric string hash of the
serialised object. -/
def getCustomizationHash (c : Option Customization) : Option Int :=
  match c with
  | none => none
  | some [] => none
  | some kvs => some (jsHash (stringifyCust kvs))

/-- cartItemId: custHash ? productId + "-" + custHash : productId.
Note that the numeric hash 0 is also falsy in JavaScript. -/
def cartItemId (productId : String) (c : Option Customization) : String :=
  match getCustomizationHash c with
  | none => productId
  | some h => if h = 0 then productId else productId ++ "-" ++ toString h

/-- One line of the client cart, as cart.js stores it. -/
structure CartLine where
  id : String
  productId : String
  name : String
  price : ℚ
  imageUrl : String
  quantity : Int
  customization : Customization
  deriving DecidableEq, Repr

/-- cart.find(item => item.id === cartItemId) followed by
existingItem.quantity += quantity: only the first matching line is
incremented. -/
def bumpFirst (cid : String) (q : Int) : List CartLine → List CartLine
  | [] => []
  | l :: ls =>
    if l.id = cid then { l with quantity := l.quantity + q } :: ls
    else l :: bumpFirst cid q ls

/-- addToCart: computes the cart item id from the product and the
customization hash, increments the first existing line with that id,
and otherwise appends a fresh line. -/
def addToCart (cart : List CartLine) (productId name : String) (price : ℚ)
    (imageUrl : String) (quantity : Int) (customization : Option Customization) :
    List CartLine :=
  let cid := cartItemId productId customization
  if cart.any (fun l => l.id == cid) then bumpFirst cid quantity cart
  else cart ++ [⟨cid, productId, name, price, imageUrl, quantity, customization.getD []⟩]

/-- getCartCount: the sum of the quantity fields over the cart. -/
def getCartCount (cart : List CartLine) : Int :=
  cart.foldl (fun n l => n + l.quantity) 0

theorem findDoc_setStock (db : DB) (id : String) (s : Int) (id' : String) :
    findDoc (setStock db id s) id' =
      (findDoc db id').map (fun pr => if id' = id then { pr with stock := s } else pr) := by
  induction db with
  | nil => rfl
  | cons e rest ih =>
    obtain ⟨k, pr⟩ := e
    simp only [setStock]
    by_cases hi : k = id
    · rw [if_pos hi]
      subst hi
      by_cases hk : k = id'
      · subst hk
        simp [findDoc]
      · have hk' : ¬ id' = k := fun h => hk h.symm
        simp [findDoc, hk, hk', ih]
    · rw [if_neg hi]
      by_cases hk : k = id'
      · subst hk
        simp [findDoc, hi]
      · simp [findDoc, hk, ih]

theorem checkItems_none_iff (db : DB) (items : List (String × Int)) :
    checkItems db items = none ↔ ∀ it ∈ items, itemBadB db it = false := by
  induction items with
  | nil => simp [checkItems]
  | cons it rest ih =>
    obtain ⟨id, q⟩ := it
    simp only [checkItems, itemBadB]
    cases h : findDoc db id with
    | none => simp [h]
    | some pr =>
      by_cases hs : pr.stock < q
      · simp [h, hs]
      · simp [h, hs, ih, itemBadB]

theorem checkItems_some_namesOffending (db : DB) (items : List (String × Int))
    (e : StockError) (h : checkItems db items = some e) :
    namesOffending db items e := by
  induction items with
  | nil => simp [checkItems] at h
  | cons it rest ih =>
    obtain ⟨id, q⟩ := it
    cases hf : findDoc db id with
    | none =>
      simp only [checkItems, hf, Option.some.injEq] at h
      subst h
      exact ⟨⟨q, by simp⟩, hf⟩
    | some pr =>
      simp only [checkItems, hf] at h
      by_cases hs : pr.stock < q
      · rw [if_pos hs, Option.some.injEq] at h
        subst h
        exact ⟨id, q, pr, by simp, hf, rfl, hs⟩
      · rw [if_neg hs] at h
        have := ih h
        cases e with
        | productNotFound id2 =>
          obtain ⟨⟨q2, hq2⟩, hnone⟩ := this
          exact ⟨⟨q2, by simp [hq2]⟩, hnone⟩
        | insufficientStock n =>
          obtain ⟨id2, q2, pr2, hmem, hfind, hname, hstock⟩ := this
          exact ⟨id2, q2, pr2, by simp [hmem], hfind, hname, hstock⟩

theorem setStock_nonneg (acc : DB) (id : String) (s : Int)
    (hs : 0 ≤ s) (hacc : ∀ e ∈ acc, 0 ≤ e.2.stock) :
    ∀ e ∈ setStock acc id s, 0 ≤ e.2.stock := by
  induction acc with
  | nil => simp [setStock]
  | cons e rest ih =>
    obtain ⟨k, pr⟩ := e
    intro x hx
    simp only [setStock, List.mem_cons] at hx
    rcases hx with hx | hx
    · by_cases hk : k = id
      · rw [if_pos hk] at hx
        subst hx
        exact hs
      · rw [if_neg hk] at hx
        subst hx
        exact hacc (k, pr) (List.mem_cons_self _ _)
    · exact ih (fun e he => hacc e (List.mem_cons_of_mem _ he)) x hx

theorem applyDecrements_nonneg (db : DB) (items : List (String × Int)) (acc : DB)
    (hchk : checkItems db items = none)
    (hacc : ∀ e ∈ acc, 0 ≤ e.2.stock) :
    ∀ e ∈ applyDecrements db items acc, 0 ≤ e.2.stock := by
  induction items generalizing acc with
  | nil => simpa [applyDecrements] using hacc
  | cons it rest ih =>
    obtain ⟨id, q⟩ := it
    cases hf : findDoc db id with
    | none => simp [checkItems, hf] at hchk
    | some pr =>
      simp only [checkItems, hf] at hchk
      by_cases hs : pr.stock < q
      · rw [if_pos hs] at hchk
        exact absurd hchk (by simp)
      · rw [if_neg hs] at hchk
        simp only [applyDecrements, hf]
        exact ih _ hchk (setStock_nonneg acc id (pr.stock - q) (by omega) hacc)

theorem applyDecrements_findDoc_notmem (db : DB) (items : List (String × Int))
    (acc : DB) (id : String) (hid : id ∉ items.map Prod.fst) :
    findDoc (applyDecrements db items acc) id = findDoc acc id := by
  induction items generalizing acc with
  | nil => rfl
  | cons it rest ih =>
    obtain ⟨id', q'⟩ := it
    simp only [List.map_cons, List.mem_cons] at hid
    push_neg at hid
    obtain ⟨hne, hrest⟩ := hid
    simp only [applyDecrements]
    cases hf : findDoc db id' with
    | none => exact ih _ hrest
    | some pr =>
      rw [ih _ hrest, findDoc_setStock]
      simp [hne]

theorem applyDecrements_findDoc_mem (db : DB) (items : List (String × Int))
    (acc : DB) (id : String) (q : Int) (pr : Product)
    (hnd : (items.map Prod.fst).Nodup) (hmem : (id, q) ∈ items)
    (hf : findDoc db id = some pr) :
    findDoc (applyDecrements db items acc) id =
      (findDoc acc id).map (fun p => { p with stock := pr.stock - q }) := by
  induction items generalizing acc with
  | nil => simp at hmem
  | cons it rest ih =>
    obtain ⟨id', q'⟩ := it
    simp only [List.map_cons, List.nodup_cons] at hnd
    obtain ⟨hnotin, hndrest⟩ := hnd
    rcases List.mem_cons.mp hmem with heq | hmemrest
    · injection heq with h1 h2
      subst h1
      subst h2
      simp only [applyDecrements, hf]
      rw [applyDecrements_findDoc_notmem db rest _ id hnotin, findDoc_setStock]
      simp
    · have hidin : id ∈ rest.map Prod.fst :=
        List.mem_map.mpr ⟨(id, q), hmemrest, rfl⟩
      have hne : id ≠ id' := fun h => hnotin (h ▸ hidin)
      simp only [applyDecrements]
      cases hf' : findDoc db id' with
      | none => exact ih _ hndrest hmemrest
      | some pr' =>
        rw [ih _ hndrest hmemrest, findDoc_setStock]
        simp [hne]

/-- C1 (amended): stock updates that go through the inventory
transaction preserve non-negativity: starting from a products store in
which every stock is non-negative, after any sequence of
updateStockTransaction calls every stock is still non-negative.  (The
claim as frozen also quantifies over the order-creation deduction,
which mutates stock outside the transaction; the counterexample
refutes it there.) -/
theorem stock_nonneg_under_transactions (db : DB)
    (calls : List (List (String × Int))) (h0 : allStocksNonneg db) :
    allStocksNonneg (applyTxns db calls) := by
  induction calls generalizing db with
  | nil => exact h0
  | cons c rest ih =>
    have hstep : allStocksNonneg (applyTxn db c) := by
      unfold applyTxn updateStockTransaction
      cases hc : checkItems db c with
      | some e => exact h0
      | none => exact applyDecrements_nonneg db c db hc h0
    simpa [applyTxns, List.foldl_cons] using ih (applyTxn db c) hstep

/-- Witness for the amended C1 theorem: a concrete store and a call
sequence whose last call is refused (and rolled back). -/
theorem stock_nonneg_under_transactions_witness :
    allStocksNonneg (applyTxns
      [("a", Product.mk "Alpha Tee" 12 15), ("b", Product.mk "Beta Mug" 8 2)]
      [[("a", 4)], [("a", 3), ("b", 2)], [("b", 1)]]) :=
  stock_nonneg_under_transactions _ _ (by decide)

/-- C1 is false as frozen: the order-creation path of the system
(onOrderCreated) mutates stock outside the inventory transaction with
an unchecked decrement, and creating a pending-payment order for 2
units of a product whose stock is 1 leaves that product at stock -1. -/
theorem order_creation_breaks_stock_invariant :
    (findDoc (onOrderCreatedStock [("p", Product.mk "Alpha Tee" 10 1)]
        [OrderItem.mk (some "p") "p" "Alpha Tee" 10 2]) "p").map Product.stock
      = some (-1) ∧
    ¬ allStocksNonneg (onOrderCreatedStock [("p", Product.mk "Alpha Tee" 10 1)]
        [OrderItem.mk (some "p") "p" "Alpha Tee" 10 2]) := by
  constructor
  · decide
  · decide

/-- C2: the inventory transaction is all-or-nothing.  Given a non-empty
request of positive quantities over pairwise distinct products: when
every listed product exists with stock at least its quantity, the call
succeeds, the stock of every listed product is decremented by exactly its
quantity, and unlisted products are untouched; when some listed product
is missing or short of stock, the call throws ProductNotFound or
InsufficientStock naming an offending product, and the store is
unchanged. -/
theorem updateStockTransaction_all_or_nothing
    (db : DB) (items : List (String × Int))
    (hne : items ≠ [])
    (hpos : ∀ it ∈ items, 0 < it.2)
    (hnd : (items.map Prod.fst).Nodup) :
    ((∀ it ∈ items, itemBadB db it = false) →
      ∃ db2, updateStockTransaction db items = .ok db2 ∧
        (∀ it ∈ items, ∀ pr, findDoc db it.1 = some pr →
          findDoc db2 it.1 = some { pr with stock := pr.stock - it.2 }) ∧
        (∀ id, id ∉ items.map Prod.fst → findDoc db2 id = findDoc db id))
    ∧ ((∃ it ∈ items, itemBadB db it = true) →
      ∃ e, updateStockTransaction db items = .error e ∧
        namesOffending db items e ∧ applyTxn db items = db) := by
  constructor
  · intro hgood
    have hchk : checkItems db items = none := (checkItems_none_iff db items).mpr hgood
    refine ⟨applyDecrements db items db, ?_, ?_, ?_⟩
    · simp [updateStockTransaction, hchk]
    · intro it hit pr hf
      obtain ⟨id, q⟩ := it
      rw [applyDecrements_findDoc_mem db items db id q pr hnd hit hf, hf]
      rfl
    · intro id hid
      exact applyDecrements_findDoc_notmem db items db id hid
  · rintro ⟨it, hit, hbad⟩
    have hnn : checkItems db items ≠ none := by
      intro hall0
      have hall := (checkItems_none_iff db items).mp hall0
      have := hall it hit
      rw [hbad] at this
      exact absurd this (by simp)
    cases hc : checkItems db items with
    | none => exact absurd hc hnn
    | some e =>
      exact ⟨e, by simp [updateStockTransaction, hc],
        checkItems_some_namesOffending db items e hc,
        by simp [applyTxn, updateStockTransaction, hc]⟩

/-- Witness for the C2 theorem: applying it to a concrete store and a
concrete two-item request whose checks pass. -/
theorem updateStockTransaction_all_or_nothing_witness :
    ∃ db2,
      updateStockTransaction
          [("a", Product.mk "Alpha Tee" 12 5), ("b", Product.mk "Beta Mug" 8 3)]
          [("a", 2), ("b", 1)] = .ok db2 ∧
      (∀ it ∈ ([("a", 2), ("b", 1)] : List (String × Int)), ∀ pr,
        findDoc [("a", Product.mk "Alpha Tee" 12 5), ("b", Product.mk "Beta Mug" 8 3)] it.1
            = some pr →
          findDoc db2 it.1 = some { pr with stock := pr.stock - it.2 }) ∧
      (∀ id, id ∉ ([("a", 2), ("b", 1)] : List (String × Int)).map Prod.fst →
        findDoc db2 id =
          findDoc [("a", Product.mk "Alpha Tee" 12 5), ("b", Product.mk "Beta Mug" 8 3)] id) :=
  (updateStockTransaction_all_or_nothing _ _ (by decide) (by decide) (by decide)).1
    (by decide)

/-- C3 is false as frozen: confirmOrder never compares the supplied
intent reference with the one stored on the order.  An order storing
intent pi_A is transitioned to paid by confirming it against a
different, succeeded intent pi_B, where the claim requires the status
to stay unchanged. -/
theorem confirmOrder_accepts_mismatched_intent :
    ("pi_B" : String) ≠ "pi_A" ∧
    (Order.mk "c@x.com" none [] "pending_payment" "pi_A").paymentIntentId = "pi_A" ∧
    confirmedStatus
      (confirmOrder [("o1", Order.mk "c@x.com" none [] "pending_payment" "pi_A")]
        [("pi_B", "succeeded")] "o1" "pi_B") "o1" = some "paid" := by
  refine ⟨by decide, rfl, ?_⟩
  decide

/-- C3 (amended): for an existing order and a payment intent the
processor reports a status for, confirmOrder transitions the order to
paid exactly when the supplied intent is settled (status succeeded),
without consulting the intent reference stored on the order; an
unsettled intent leaves every order unchanged.  (The conclusion does
not depend on the stored reference of the looked-up order, which is
what the counterexample exploits.) -/
theorem confirmOrder_paid_iff_settled (os : Orders) (stripe : StripeIntents)
    (oid pid : String) (o : Order) (st : String)
    (ho : findDoc os oid = some o) (hs : findDoc stripe pid = some st) :
    (st = "succeeded" →
      confirmOrder os stripe oid pid = .ok (setOrderStatus os oid "paid", true)) ∧
    (st ≠ "succeeded" → confirmOrder os stripe oid pid = .ok (os, false)) := by
  constructor
  · intro hst
    simp [confirmOrder, ho, hs, hst]
  · intro hst
    simp [confirmOrder, ho, hs, hst]

/-- Witness for the amended C3 theorem at a concrete store: a settled
intent marks the order paid, by the theorem itself. -/
theorem confirmOrder_paid_iff_settled_witness :
    (("succeeded" : String) = "succeeded" →
      confirmOrder [("o1", Order.mk "c@x.com" none [] "pending_payment" "pi_A")]
          [("pi_A", "succeeded")] "o1" "pi_A" =
        .ok (setOrderStatus [("o1", Order.mk "c@x.com" none [] "pending_payment" "pi_A")]
          "o1" "paid", true)) ∧
    (("succeeded" : String) ≠ "succeeded" →
      confirmOrder [("o1", Order.mk "c@x.com" none [] "pending_payment" "pi_A")]
          [("pi_A", "succeeded")] "o1" "pi_A" =
        .ok ([("o1", Order.mk "c@x.com" none [] "pending_payment" "pi_A")], false)) :=
  confirmOrder_paid_iff_settled _ _ _ _
    (Order.mk "c@x.com" none [] "pending_payment" "pi_A") _ (by decide) (by decide)

/-- C4: the claim is right and the code is wrong.  At a concrete store
with a product at stock 5, creating the pending-payment order already
decrements stock to 4 (the claim says creation must not decrement),
and the confirmation step leaves the products collection exactly as it
found it instead of invoking the inventory transaction. -/
theorem stock_deducted_at_creation_not_at_confirmation :
    (findDoc (onOrderCreatedStock [("p", Product.mk "Mug" 12 5)]
        [OrderItem.mk (some "p") "p" "Mug" 12 1]) "p").map Product.stock = some 4 ∧
    (findDoc ([("p", Product.mk "Mug" 12 5)] : DB) "p").map Product.stock = some 5 ∧
    (confirmOrderSystem [("p", Product.mk "Mug" 12 5)]
        [("o1", Order.mk "c@x.com" none [OrderItem.mk (some "p") "p" "Mug" 12 1]
          "pending_payment" "pi_1")]
        [("pi_1", "succeeded")] "o1" "pi_1").1 = [("p", Product.mk "Mug" 12 5)] := by
  refine ⟨by decide, by decide, rfl⟩

/-- C5 is false as frozen: there is no transition validation, so a
backward update from delivered to paid is applied, changing the order,
where the claim requires it to fail with InvalidTransition and leave
the order unchanged.  (No InvalidTransition error exists anywhere in
the source.) -/
theorem backward_status_transition_is_applied :
    (Order.mk "c@x.com" none [] "delivered" "pi_1").status = "delivered" ∧
    ((applyStatusUpdate (Order.mk "c@x.com" none [] "delivered" "pi_1") "paid").1).status
      = "paid" ∧
    (applyStatusUpdate (Order.mk "c@x.com" none [] "delivered" "pi_1") "paid").1
      ≠ Order.mk "c@x.com" none [] "delivered" "pi_1" := by
  refine ⟨rfl, rfl, by decide⟩

/-- C5 (amended): order status updates are applied unconditionally —
no backward transition is rejected and no InvalidTransition failure
exists; the onOrderStatusUpdate trigger only reacts: it queues the
shipping notification exactly when the status changes to shipped, and
stamps the delivery time exactly when the status changes to
delivered. -/
theorem onOrderStatusUpdate_no_validation (o : Order) (s : String) :
    (applyStatusUpdate o s).1.status = s ∧
    ((applyStatusUpdate o s).2.shippingMail = true ↔
      (s = "shipped" ∧ o.status ≠ "shipped")) ∧
    ((applyStatusUpdate o s).2.deliveredTimestamped = true ↔
      (s = "delivered" ∧ o.status ≠ "delivered")) := by
  refine ⟨rfl, ?_, ?_⟩
  · simp only [applyStatusUpdate, onOrderStatusUpdate]
    by_cases h : s = o.status
    · subst h
      simp
    · rw [if_neg (by simpa using h)]
      simp only [Bool.and_eq_true, beq_iff_eq, Bool.not_eq_true']
      constructor
      · rintro ⟨h1, h2⟩
        exact ⟨h1, by simpa using h2⟩
      · rintro ⟨h1, h2⟩
        exact ⟨h1, by simpa using h2⟩
  · simp only [applyStatusUpdate, onOrderStatusUpdate]
    by_cases h : s = o.status
    · subst h
      simp
    · rw [if_neg (by simpa using h)]
      simp only [beq_iff_eq]
      constructor
      · intro h1
        exact ⟨h1, fun hd => h (h1.trans hd.symm)⟩
      · exact fun hp => hp.1

/-- Witness for the amended C5 theorem at a concrete backward update:
the write from delivered to paid is applied and triggers nothing. -/
theorem onOrderStatusUpdate_no_validation_witness :
    ((applyStatusUpdate (Order.mk "c@x.com" none [] "delivered" "pi_9") "paid").1.status
      = "paid") ∧
    ((applyStatusUpdate (Order.mk "c@x.com" none [] "delivered" "pi_9") "paid").2.shippingMail
        = true ↔ (("paid" : String) = "shipped" ∧
          (Order.mk "c@x.com" none [] "delivered" "pi_9").status ≠ "shipped")) ∧
    ((applyStatusUpdate (Order.mk "c@x.com" none [] "delivered" "pi_9")
          "paid").2.deliveredTimestamped = true ↔
      (("paid" : String) = "delivered" ∧
        (Order.mk "c@x.com" none [] "delivered" "pi_9").status ≠ "delivered")) :=
  onOrderStatusUpdate_no_validation _ _

theorem buildOrderItems_setClientPrices (db : DB) (items : List CheckoutItem)
    (ps : List ℚ) :
    buildOrderItems db (setClientPrices items ps) = buildOrderItems db items := by
  induction items generalizing ps with
  | nil => cases ps <;> rfl
  | cons it rest ih =>
    obtain ⟨pid, q, cp⟩ := it
    cases ps with
    | nil => rfl
    | cons p ps' =>
      simp only [setClientPrices, buildOrderItems]
      rw [ih ps']

theorem buildOrderItems_prices (db : DB) (items : List CheckoutItem)
    (l : List OrderItem) (h : buildOrderItems db items = .ok l) :
    ∀ i ∈ l, ∃ pr, findDoc db i.pid = some pr ∧ i.price = pr.price := by
  induction items generalizing l with
  | nil =>
    simp only [buildOrderItems, Except.ok.injEq] at h
    subst h
    simp
  | cons it rest ih =>
    cases hf : findDoc db it.productId with
    | none => simp [buildOrderItems, hf] at h
    | some pr =>
      simp only [buildOrderItems, hf] at h
      by_cases hs : pr.stock < it.quantity
      · rw [if_pos hs] at h
        exact absurd h (by simp)
      · rw [if_neg hs] at h
        cases hr : buildOrderItems db rest with
        | error e =>
          rw [hr] at h
          exact absurd h (by simp)
        | ok l' =>
          rw [hr] at h
          simp only [Except.ok.injEq] at h
          subst h
          intro i hi
          rcases List.mem_cons.mp hi with rfl | hi'
          · exact ⟨pr, by simpa [OrderItem.pid] using hf, rfl⟩
          · exact ih l' hr i hi'

/-- C6: for every checkout request that createPaymentIntent accepts,
the order total is computed server-side: the subtotal is the sum of
catalog unit price times quantity over the priced items, every priced
item carries the catalog price of its product (never a client-supplied
price: replacing all client-claimed prices leaves the result
unchanged), shipping is the flat fee 4.99 unless the subtotal exceeds
the free-shipping threshold, and total = subtotal + shipping + 0 tax. -/
theorem createPaymentIntent_total (db : DB) (items : List CheckoutItem)
    (l : List OrderItem) (st sh tot : ℚ)
    (h : createPaymentIntent db items = .ok (l, st, sh, tot)) :
    st = subtotalOf l ∧
    (∀ i ∈ l, ∃ pr, findDoc db i.pid = some pr ∧ i.price = pr.price) ∧
    sh = (if st > 50 then 0 else 499 / 100) ∧
    tot = st + sh + 0 ∧
    (∀ ps : List ℚ, createPaymentIntent db (setClientPrices items ps) =
      .ok (l, st, sh, tot)) := by
  cases hb : buildOrderItems db items with
  | error e => simp [createPaymentIntent, hb] at h
  | ok l' =>
    rw [createPaymentIntent, hb] at h
    simp only [Except.ok.injEq, Prod.mk.injEq] at h
    obtain ⟨rfl, rfl, rfl, rfl⟩ := h
    refine ⟨rfl, buildOrderItems_prices db items l' hb, rfl, (add_zero _).symm, ?_⟩
    intro ps
    rw [createPaymentIntent, buildOrderItems_setClientPrices, hb]

/-- Witness for C6: the spec scenario.  A cart of 2 units of productA
(catalog price 10.00) and 1 unit of productB (catalog price 25.00),
with garbage client-side prices, yields subtotal 45, shipping 4.99 and
total 49.99. -/
theorem createPaymentIntent_total_witness :
    (45 : ℚ) = subtotalOf [OrderItem.mk (some "productA") "" "Product A" 10 2,
        OrderItem.mk (some "productB") "" "Product B" 25 1] ∧
    (∀ i ∈ [OrderItem.mk (some "productA") "" "Product A" 10 2,
        OrderItem.mk (some "productB") "" "Product B" 25 1], ∃ pr,
      findDoc [("productA", Product.mk "Product A" 10 5),
          ("productB", Product.mk "Product B" 25 3)] i.pid = some pr ∧
        i.price = pr.price) ∧
    (499 / 100 : ℚ) = (if (45 : ℚ) > 50 then 0 else 499 / 100) ∧
    (4999 / 100 : ℚ) = 45 + 499 / 100 + 0 ∧
    (∀ ps : List ℚ, createPaymentIntent
        [("productA", Product.mk "Product A" 10 5), ("productB", Product.mk "Product B" 25 3)]
        (setClientPrices [CheckoutItem.mk "productA" 2 999, CheckoutItem.mk "productB" 1 0] ps) =
      .ok ([OrderItem.mk (some "productA") "" "Product A" 10 2,
        OrderItem.mk (some "productB") "" "Product B" 25 1], 45, 499 / 100, 4999 / 100)) :=
  createPaymentIntent_total _ _ _ _ _ _ (by
    simp [createPaymentIntent, buildOrderItems, subtotalOf, findDoc]
    norm_num)

/-- C7: along any sequence of stock writes to a product, the low-stock
alert is queued at a write exactly when it crosses the threshold 10
downwards — the stock before the write is at least 10 and the written
value is below 10; in particular no alert fires for a write made while
stock is already below the threshold. -/
theorem lowstock_alert_iff_crossing (init : Int) (updates : List Int) (i : Nat)
    (hi : i < updates.length) :
    ((lowAlerts init updates).getD i false = true ↔
      (10 ≤ (init :: updates).getD i 0 ∧ updates.getD i 0 < 10)) := by
  induction updates generalizing init i with
  | nil => simp at hi
  | cons n rest ih =>
    cases i with
    | zero =>
      simp only [lowAlerts, List.getD_cons_zero, syncStockEffects]
      by_cases h : n = init
      · subst h
        rw [if_pos (by simp)]
        constructor
        · intro hf
          exact absurd hf (by simp)
        · rintro ⟨h1, h2⟩
          omega
      · rw [if_neg (by simpa using h)]
        simp only [Bool.and_eq_true, decide_eq_true_eq]
        exact and_comm
    | succ j =>
      simp only [lowAlerts, List.getD_cons_succ]
      exact ih n j (by simpa using hi)

/-- Witness for C7: starting from stock 12, the first write (value 9)
crosses the threshold, and the theorem applies to it. -/
theorem lowstock_alert_iff_crossing_witness :
    ((lowAlerts 12 [9, 5, 11, 8]).getD 0 false = true ↔
      (10 ≤ ((12 : Int) :: [9, 5, 11, 8]).getD 0 0 ∧
        ([9, 5, 11, 8] : List Int).getD 0 0 < 10)) :=
  lowstock_alert_iff_crossing 12 [9, 5, 11, 8] 0 (by decide)

theorem findDoc_filter_ne (wl : Waitlists) (pid : String) :
    findDoc (wl.filter (fun e => e.1 != pid)) pid = none := by
  induction wl with
  | nil => rfl
  | cons e rest ih =>
    obtain ⟨k, v⟩ := e
    by_cases hk : k = pid
    · subst hk
      simpa [List.filter_cons] using ih
    · simpa [List.filter_cons, hk, findDoc] using ih

/-- C8: when the stock of a product moves from exactly 0 to a positive
value, the restock branch mails exactly the subscribers on the
waitlist of the product and deletes the waitlist document, so the waitlist
for the product is empty afterwards; an update whose old stock is not
0 leaves the waitlists collection untouched and mails nobody. -/
theorem restock_drains_waitlist (wl : Waitlists) (pid : String)
    (oldStock newStock : Int) :
    (oldStock = 0 → 0 < newStock →
      (syncWaitlistStep wl pid oldStock newStock).2 = (findDoc wl pid).getD [] ∧
      findDoc (syncWaitlistStep wl pid oldStock newStock).1 pid = none) ∧
    (oldStock ≠ 0 →
      (syncWaitlistStep wl pid oldStock newStock).1 = wl ∧
      (syncWaitlistStep wl pid oldStock newStock).2 = []) := by
  constructor
  · rintro rfl hpos
    have hne : ¬ (newStock = (0 : Int)) := by omega
    have hcond : ((0 : Int) = 0 ∧ 0 < newStock) := ⟨rfl, hpos⟩
    simp only [syncWaitlistStep, if_neg hne, if_pos hcond]
    cases hf : findDoc wl pid with
    | none =>
      exact ⟨by simp [notifyWaitlist, hf, hpos], by simp [notifyWaitlist, hf, hpos]⟩
    | some emails =>
      exact ⟨by simp [notifyWaitlist, hf, hpos],
        by simp [notifyWaitlist, hf, hpos, findDoc_filter_ne]⟩
  · intro h0
    simp only [syncWaitlistStep]
    by_cases he : newStock = oldStock
    · rw [if_pos he]
      exact ⟨rfl, rfl⟩
    · rw [if_neg he, if_neg (by tauto)]
      exact ⟨rfl, rfl⟩

/-- Witness for C8: a restock from 0 to 3 notifies the two subscribers
and empties the waitlist of the product. -/
theorem restock_drains_waitlist_witness :
    ((0 : Int) = 0 → (0 : Int) < 3 →
      (syncWaitlistStep [("p", ["a@x.com", "b@x.com"])] "p" 0 3).2 =
        (findDoc [("p", ["a@x.com", "b@x.com"])] "p").getD [] ∧
      findDoc (syncWaitlistStep [("p", ["a@x.com", "b@x.com"])] "p" 0 3).1 "p" = none) ∧
    ((0 : Int) ≠ 0 →
      (syncWaitlistStep [("p", ["a@x.com", "b@x.com"])] "p" 0 3).1 =
        [("p", ["a@x.com", "b@x.com"])] ∧
      (syncWaitlistStep [("p", ["a@x.com", "b@x.com"])] "p" 0 3).2 = []) :=
  restock_drains_waitlist _ _ _ _

theorem verifiedPurchase_iff (orders : List Order) (uid pid : String) :
    verifiedPurchase orders uid pid = true ↔
      ∃ o ∈ orders, o.userId = some uid ∧ o.status = "delivered" ∧
        ∃ it ∈ o.items, it.pid = pid := by
  simp [verifiedPurchase, List.any_eq_true, Bool.and_eq_true, beq_iff_eq, and_assoc]

/-- C9: submitReview rejects unauthenticated callers outright; an
authenticated caller with no delivered order containing the reviewed
product is rejected with permission denied (no review written); and
the review it writes for a verified purchaser always carries
verified_purchase true and approved false, so a fresh review awaits
moderation. -/
theorem submitReview_requires_delivered_purchase
    (orders : List Order) (auth : Option AuthCtx) (productId : String)
    (rating : Int) (comment title : String) :
    (auth = none →
      submitReview orders auth productId rating comment title = .error .unauthenticated) ∧
    (∀ a, auth = some a →
      ((∃ o ∈ orders, o.userId = some a.uid ∧ o.status = "delivered" ∧
          ∃ it ∈ o.items, it.pid = productId) →
        submitReview orders auth productId rating comment title =
          .ok ⟨a.uid, a.name.getD "Customer", rating, comment, title, true, false⟩) ∧
      (¬ (∃ o ∈ orders, o.userId = some a.uid ∧ o.status = "delivered" ∧
          ∃ it ∈ o.items, it.pid = productId) →
        submitReview orders auth productId rating comment title =
          .error .permissionDenied)) := by
  refine ⟨?_, ?_⟩
  · rintro rfl
    rfl
  · rintro a rfl
    constructor
    · intro hex
      have hv : verifiedPurchase orders a.uid productId = true :=
        (verifiedPurchase_iff orders a.uid productId).mpr hex
      simp [submitReview, hv]
    · intro hnex
      have hv : verifiedPurchase orders a.uid productId = false := by
        cases hvb : verifiedPurchase orders a.uid productId with
        | false => rfl
        | true =>
          exact absurd ((verifiedPurchase_iff orders a.uid productId).mp hvb) hnex
      simp [submitReview, hv]

/-- Witness for C9: a delivered order of user u1 containing product p1
lets u1 submit a review, which is unapproved and purchase-verified. -/
theorem submitReview_requires_delivered_purchase_witness :
    ((some (AuthCtx.mk "u1" (some "Ada")) : Option AuthCtx) = none →
      submitReview [Order.mk "u1@x.com" (some "u1")
          [OrderItem.mk (some "p1") "p1" "Tee" 10 1] "delivered" "pi_7"]
        (some (AuthCtx.mk "u1" (some "Ada"))) "p1" 5 "great" "Great" =
          .error .unauthenticated) ∧
    (∀ a, (some (AuthCtx.mk "u1" (some "Ada")) : Option AuthCtx) = some a →
      ((∃ o ∈ [Order.mk "u1@x.com" (some "u1")
            [OrderItem.mk (some "p1") "p1" "Tee" 10 1] "delivered" "pi_7"],
          o.userId = some a.uid ∧ o.status = "delivered" ∧
            ∃ it ∈ o.items, it.pid = "p1") →
        submitReview [Order.mk "u1@x.com" (some "u1")
            [OrderItem.mk (some "p1") "p1" "Tee" 10 1] "delivered" "pi_7"]
          (some (AuthCtx.mk "u1" (some "Ada"))) "p1" 5 "great" "Great" =
            .ok ⟨a.uid, a.name.getD "Customer", 5, "great", "Great", true, false⟩) ∧
      (¬ (∃ o ∈ [Order.mk "u1@x.com" (some "u1")
            [OrderItem.mk (some "p1") "p1" "Tee" 10 1] "delivered" "pi_7"],
          o.userId = some a.uid ∧ o.status = "delivered" ∧
            ∃ it ∈ o.items, it.pid = "p1") →
        submitReview [Order.mk "u1@x.com" (some "u1")
            [OrderItem.mk (some "p1") "p1" "Tee" 10 1] "delivered" "pi_7"]
          (some (AuthCtx.mk "u1" (some "Ada"))) "p1" 5 "great" "Great" =
            .error .permissionDenied)) :=
  submitReview_requires_delivered_purchase _ _ _ _ _ _

theorem getCartCount_aux (cart : List CartLine) (n : Int) :
    cart.foldl (fun n l => n + l.quantity) n =
      n + (cart.map (fun l => l.quantity)).sum := by
  induction cart generalizing n with
  | nil => simp
  | cons l ls ih => simp [List.foldl_cons, ih, add_assoc]

theorem getCartCount_eq_sum (cart : List CartLine) :
    getCartCount cart = (cart.map (fun l => l.quantity)).sum := by
  simpa [getCartCount] using getCartCount_aux cart 0

theorem bumpFirst_decomp (cid : String) (q : Int) (cart : List CartLine)
    (hex : ∃ l ∈ cart, l.id = cid) :
    ∃ pre l post, cart = pre ++ l :: post ∧ l.id = cid ∧
      (∀ l' ∈ pre, l'.id ≠ cid) ∧
      bumpFirst cid q cart = pre ++ { l with quantity := l.quantity + q } :: post := by
  induction cart with
  | nil => simp at hex
  | cons x xs ih =>
    by_cases hx : x.id = cid
    · exact ⟨[], x, xs, by simp, hx, by simp, by simp [bumpFirst, hx]⟩
    · obtain ⟨l, hl, hlid⟩ := hex
      rcases List.mem_cons.mp hl with rfl | hl'
      · exact absurd hlid hx
      · obtain ⟨pre, l0, post, hcart, hid, hpre, hbump⟩ := ih ⟨l, hl', hlid⟩
        refine ⟨x :: pre, l0, post, by simp [hcart], hid, ?_, ?_⟩
        · intro l' hl''
          rcases List.mem_cons.mp hl'' with rfl | h
          · exact hx
          · exact hpre l' h
        · simp [bumpFirst, hx, hbump]

/-- C10 (amended): addToCart merges by the computed cart item id, the
product id joined with the customization hash.  The cart count always
grows by exactly the added quantity; when some line already carries
the computed id, the quantity of the first such line is incremented and
every other line is unchanged, with no new line; when no line carries
it, a single fresh line is appended.  (The merge key is the hash
value, not the customization itself: the counterexample exhibits two
different customizations that share one line.) -/
theorem addToCart_merges_by_item_id (cart : List CartLine)
    (productId name : String) (price : ℚ) (imageUrl : String)
    (quantity : Int) (customization : Option Customization) :
    getCartCount (addToCart cart productId name price imageUrl quantity customization) =
      getCartCount cart + quantity ∧
    ((∃ l ∈ cart, l.id = cartItemId productId customization) →
      ∃ pre l post, cart = pre ++ l :: post ∧
        l.id = cartItemId productId customization ∧
        (∀ l' ∈ pre, l'.id ≠ cartItemId productId customization) ∧
        addToCart cart productId name price imageUrl quantity customization =
          pre ++ { l with quantity := l.quantity + quantity } :: post) ∧
    ((∀ l ∈ cart, l.id ≠ cartItemId productId customization) →
      addToCart cart productId name price imageUrl quantity customization =
        cart ++ [⟨cartItemId productId customization, productId, name, price,
          imageUrl, quantity, customization.getD []⟩]) := by
  by_cases hany : cart.any (fun l => l.id == cartItemId productId customization) = true
  · obtain ⟨l1, hl1, hbeq⟩ := List.any_eq_true.mp hany
    have hl1id : l1.id = cartItemId productId customization := by simpa using hbeq
    obtain ⟨pre, l0, post, hcart, hid, hpre, hbump⟩ :=
      bumpFirst_decomp (cartItemId productId customization) quantity cart ⟨l1, hl1, hl1id⟩
    have haddeq : addToCart cart productId name price imageUrl quantity customization =
        pre ++ { l0 with quantity := l0.quantity + quantity } :: post := by
      rw [addToCart, if_pos hany, hbump]
    refine ⟨?_, fun _ => ⟨pre, l0, post, hcart, hid, hpre, haddeq⟩,
      fun hall => absurd hl1id (hall l1 hl1)⟩
    rw [haddeq, getCartCount_eq_sum, getCartCount_eq_sum, hcart]
    simp only [List.map_append, List.map_cons, List.sum_append, List.sum_cons]
    ring
  · have haddeq : addToCart cart productId name price imageUrl quantity customization =
        cart ++ [⟨cartItemId productId customization, productId, name, price,
          imageUrl, quantity, customization.getD []⟩] := by
      rw [addToCart, if_neg hany]
    refine ⟨?_, ?_, fun _ => haddeq⟩
    · rw [haddeq, getCartCount_eq_sum, getCartCount_eq_sum]
      simp
    · rintro ⟨l, hl, hlid⟩
      exact absurd (List.any_eq_true.mpr ⟨l, hl, by simpa using hlid⟩) hany

/-- Witness for the amended C10 theorem: adding to the empty cart
appends one fresh line and raises the count by the added quantity. -/
theorem addToCart_merges_by_item_id_witness :
    getCartCount (addToCart [] "p" "Tee" 10 "" 1 none) = getCartCount [] + 1 ∧
    ((∃ l ∈ ([] : List CartLine), l.id = cartItemId "p" none) →
      ∃ pre l post, ([] : List CartLine) = pre ++ l :: post ∧
        l.id = cartItemId "p" none ∧
        (∀ l' ∈ pre, l'.id ≠ cartItemId "p" none) ∧
        addToCart [] "p" "Tee" 10 "" 1 none =
          pre ++ { l with quantity := l.quantity + 1 } :: post) ∧
    ((∀ l ∈ ([] : List CartLine), l.id ≠ cartItemId "p" none) →
      addToCart [] "p" "Tee" 10 "" 1 none =
        [] ++ [⟨cartItemId "p" none, "p", "Tee", 10, "", 1,
          (none : Option Customization).getD []⟩]) :=
  addToCart_merges_by_item_id [] "p" "Tee" 10 "" 1 none

/-- C10 is false as frozen: two different customizations of the same
product can land in the same cart line, because the merge key is the
32-bit string hash of the JSON serialisation, and the serialisations
of size Aa and size BB collide.  Adding the two variants to an empty
cart yields a single line of quantity 2, not two separate lines. -/
theorem different_customizations_can_merge :
    ([("size", "Aa")] : Customization) ≠ [("size", "BB")] ∧
    (addToCart (addToCart [] "p" "Tee" 10 "" 1 (some [("size", "Aa")]))
        "p" "Tee" 10 "" 1 (some [("size", "BB")])).length = 1 ∧
    getCartCount (addToCart (addToCart [] "p" "Tee" 10 "" 1 (some [("size", "Aa")]))
        "p" "Tee" 10 "" 1 (some [("size", "BB")])) = 2 := by
  refine ⟨by decide, by decide, by decide⟩
